import Mathlib

/-!
Verification of the YT-Summarizer browser extension core.

JavaScript strings are embedded as `List Char`, JavaScript numbers that can
be `NaN` as `Option Int` (with `none` playing the role of `NaN`), and the
DOM / storage collaborators as explicit inputs.  All definitions are
translated from the repository sources:

* `src/content/content.js`   — transcript extraction, timestamp decoding,
  the busy guard of the message listener;
* `src/utils/youtube-api.js` — `formatDuration` (the timestamp encoder);
* `src/models/model-loader.js` — `formatSummaryResponse`,
  `addTimestampsToPoints` (the keyword aligner);
* `src/unnamed/part_003`     — `TranscriptParser.createSummary` and the two
  `saveToCache` variants;
* `src/unnamed/part_002`     — the popup renderer `displaySummary`.
-/

/-- Convenience: the character list of a string literal. -/
def str (s : String) : List Char := s.data

/-- JavaScript `String.prototype.trim`: drop whitespace at both ends. -/
def jsTrim (l : List Char) : List Char :=
  ((l.dropWhile Char.isWhitespace).reverse.dropWhile Char.isWhitespace).reverse

/-- JavaScript `split(sep)` for a single-character separator: every
occurrence of the separator closes the current piece. `"".split` gives one
empty piece, as in JavaScript. -/
def splitOnChar (sep : Char) : List Char → List (List Char)
  | [] => [[]]
  | c :: cs =>
    match splitOnChar sep cs with
    | [] => [[]]
    | r :: rs => if c = sep then [] :: r :: rs else (c :: r) :: rs

/-- JavaScript `split` on a one-character regex class: every character that
matches the predicate is a separator (consecutive matches yield empty
pieces). -/
def splitOnPred (p : Char → Bool) : List Char → List (List Char)
  | [] => [[]]
  | c :: cs =>
    match splitOnPred p cs with
    | [] => [[]]
    | r :: rs => if p c then [] :: r :: rs else (c :: r) :: rs

/-- Worker for `splitWs`: `acc` holds the current token reversed, the flag
records whether we are inside a whitespace run (whose first character has
already closed a token). -/
def splitWsCore : List Char → List Char → Bool → List (List Char)
  | [], acc, _ => [acc.reverse]
  | c :: cs, acc, inWs =>
    if c.isWhitespace then
      if inWs then splitWsCore cs acc true
      else acc.reverse :: splitWsCore cs [] true
    else splitWsCore cs (c :: acc) false

/-- JavaScript `split(/\s+/)`: maximal whitespace runs separate the tokens;
leading or trailing whitespace contributes an empty boundary token, exactly
as in JavaScript. -/
def splitWs (l : List Char) : List (List Char) :=
  splitWsCore l [] false

/-- Does `l` start with `p`? (JavaScript substring search helper.) -/
def startsWith : List Char → List Char → Bool
  | _, [] => true
  | [], _ :: _ => false
  | a :: as, b :: bs => a = b && startsWith as bs

/-- JavaScript `String.prototype.includes`: `needle` occurs contiguously in
`hay`. -/
def containsSub (hay needle : List Char) : Bool :=
  match hay with
  | [] => needle.isEmpty
  | _ :: t => startsWith hay needle || containsSub t needle

/-- Value of a digit list under the usual left fold (`'4'` ↦ 4 …). -/
def digitsVal (l : List Char) : Nat :=
  l.foldl (fun a c => a * 10 + (c.toNat - 48)) 0

/-- Digit prefix of `parseInt`: take leading decimal digits; with no digit
the result is `NaN` (`none`). -/
def digitsPrefixVal (l : List Char) : Option Nat :=
  let ds := l.takeWhile Char.isDigit
  if ds.isEmpty then none else some (digitsVal ds)

/-- JavaScript `parseInt(s)` (radix 10): skip leading whitespace, an
optional sign, then read the decimal-digit prefix; no digit means `NaN`. -/
def jsParseInt (l : List Char) : Option Int :=
  match l.dropWhile Char.isWhitespace with
  | '-' :: rest => (digitsPrefixVal rest).map (fun n => -(n : Int))
  | '+' :: rest => (digitsPrefixVal rest).map (fun n => (n : Int))
  | other => (digitsPrefixVal other).map (fun n => (n : Int))

/-- `NaN`-propagating addition on JavaScript numbers. -/
def jsAdd : Option Int → Option Int → Option Int
  | some a, some b => some (a + b)
  | _, _ => none

/-- `NaN`-propagating multiplication on JavaScript numbers. -/
def jsMul : Option Int → Option Int → Option Int
  | some a, some b => some (a * b)
  | _, _ => none

/-- `NaN`-propagating subtraction on JavaScript numbers. -/
def jsSub : Option Int → Option Int → Option Int
  | some a, some b => some (a - b)
  | _, _ => none

/-- Timestamp decoding from `src/content/content.js` lines 159-166: the
display string is split on `:`; two parts give `m*60+s`, three parts give
`h*3600+m*60+s`, every other shape leaves the initial `seconds = 0`. -/
def parseTimestamp (timeText : List Char) : Option Int :=
  match splitOnChar ':' timeText with
  | [p0, p1] =>
      jsAdd (jsMul (jsParseInt p0) (some 60)) (jsParseInt p1)
  | [p0, p1, p2] =>
      jsAdd (jsAdd (jsMul (jsParseInt p0) (some 3600)) (jsMul (jsParseInt p1) (some 60)))
        (jsParseInt p2)
  | _ => some 0

/-- Fuelled decimal printer mirroring the digit-by-digit division loop of
number-to-string conversion; `fuel` only has to exceed the digit count. -/
def natToCharsCore : Nat → Nat → List Char → List Char
  | _, 0, acc => acc
  | n, fuel + 1, acc =>
    if n < 10 then Char.ofNat (48 + n) :: acc
    else natToCharsCore (n / 10) fuel (Char.ofNat (48 + n % 10) :: acc)

/-- Decimal representation of a natural number (JavaScript `${n}`). -/
def natToChars (n : Nat) : List Char :=
  natToCharsCore n (n + 1) []

/-- JavaScript `${i}` for an integer value. -/
def intToChars (i : Int) : List Char :=
  if i < 0 then '-' :: natToChars i.natAbs else natToChars i.toNat

/-- JavaScript `padStart(2, '0')`. -/
def padStart2 (l : List Char) : List Char :=
  if 2 ≤ l.length then l else List.replicate (2 - l.length) '0' ++ l

/-- `formatDuration` from `src/utils/youtube-api.js` lines 132-144: falsy
input (`0` or `NaN`) yields `"Unknown"`; otherwise hours are printed only
when positive, minutes and seconds are zero-padded to two digits. -/
def formatDuration (seconds : Option Int) : List Char :=
  match seconds with
  | none => str "Unknown"
  | some s =>
    if s = 0 then str "Unknown"
    else
      let hours : Int := Int.fdiv s 3600
      let minutes : Int := Int.fdiv (Int.tmod s 3600) 60
      let secs : Int := Int.tmod s 60
      if 0 < hours then
        intToChars hours ++ ':' :: (padStart2 (intToChars minutes) ++ ':' :: padStart2 (intToChars secs))
      else
        intToChars minutes ++ ':' :: padStart2 (intToChars secs)

/-- The display shapes named by the spec: `M:SS`, `MM:SS`, `H:MM:SS`,
`HH:MM:SS` with purely numeric fields. -/
def validShapeB (display : List Char) : Bool :=
  match splitOnChar ':' display with
  | [a, b] =>
      decide (1 ≤ a.length) && decide (a.length ≤ 2) && decide (b.length = 2) &&
        a.all Char.isDigit && b.all Char.isDigit
  | [a, b, c] =>
      decide (1 ≤ a.length) && decide (a.length ≤ 2) &&
        decide (b.length = 2) && decide (c.length = 2) &&
        a.all Char.isDigit && b.all Char.isDigit && c.all Char.isDigit
  | _ => false

/-- A transcript segment as built by `extractTranscript` in
`src/content/content.js` lines 168-173. -/
structure Segment where
  text : List Char
  timestamp : List Char
  seconds : Option Int
  index : Nat
deriving DecidableEq, Repr

/-- A key point carrying its (possibly absent) timestamp, as built by
`addTimestampsToPoints` in `src/models/model-loader.js` lines 258-295. -/
structure AlignedPoint where
  text : List Char
  timestamp : Option (List Char)
  seconds : Option Int
deriving DecidableEq, Repr

/-- Punctuation stripping of `src/models/model-loader.js` line 269:
`word.replace(/[.,;!?()]/g, '')`. -/
def stripPunct (w : List Char) : List Char :=
  w.filter (fun c =>
    !(c = '.' || c = ',' || c = ';' || c = '!' || c = '?' || c = '(' || c = ')'))

/-- Candidate keywords of a key point (`model-loader.js` lines 266-269):
lower-case the point, split on whitespace, keep tokens of length at least
five, strip punctuation from each. -/
def extractKeywords (point : List Char) : List (List Char) :=
  ((splitWs (point.map Char.toLower)).filter (fun w => decide (5 ≤ w.length))).map stripPunct

/-- How many of the keywords occur as substrings of the segment text,
lower-cased (`model-loader.js` lines 278-280). -/
def matchCount (keywords : List (List Char)) (segText : List Char) : Nat :=
  (keywords.filter (fun kw => containsSub (segText.map Char.toLower) kw)).length

/-- The scanning loop of `model-loader.js` lines 277-286: the pair carries
the current best segment (`none` embeds `bestMatchIndex = -1`) and the best
count; a segment only takes over on a strictly larger count. -/
def bestMatchAux (kws : List (List Char)) :
    List Segment → Option Segment × Nat → Option Segment × Nat
  | [], best => best
  | s :: rest, (bseg, bcount) =>
    let c := matchCount kws s.text
    if bcount < c then bestMatchAux kws rest (some s, c)
    else bestMatchAux kws rest (bseg, bcount)

/-- Alignment of one key point (`addTimestampsToPoints` body for a single
point, `model-loader.js` lines 258-295): with no keyword the point keeps
`timestamp: null, seconds: 0`; otherwise the best-matching segment is
accepted when its count reaches `Math.min(2, keywords.length)`. -/
def addTimestampToPoint (point : List Char) (transcript : List Segment) : AlignedPoint :=
  let kws := extractKeywords point
  if 0 < kws.length then
    match bestMatchAux kws transcript (none, 0) with
    | (some seg, bcount) =>
      if min 2 kws.length ≤ bcount then ⟨point, some seg.timestamp, seg.seconds⟩
      else ⟨point, none, some 0⟩
    | (none, _) => ⟨point, none, some 0⟩
  else ⟨point, none, some 0⟩

/-- `addTimestampsToPoints` (`model-loader.js` lines 251-299). -/
def addTimestampsToPoints (points : List (List Char)) (transcript : List Segment) :
    List AlignedPoint :=
  points.map (fun p => addTimestampToPoint p transcript)

/-- Highest keyword count over the transcript (0 for the empty transcript). -/
def maxCount (kws : List (List Char)) (transcript : List Segment) : Nat :=
  (transcript.map (fun s => matchCount kws s.text)).foldr max 0

/-- The aligner exactly as the claim words it: count keyword hits per
segment, select the earliest segment attaining the highest count, attach its
timestamp precisely when that best count reaches `min 2 (number of
keywords)`. -/
def alignClaimLiteral (point : List Char) (transcript : List Segment) : AlignedPoint :=
  let kws := extractKeywords point
  let best := maxCount kws transcript
  match transcript.find? (fun s => decide (best ≤ matchCount kws s.text)) with
  | some seg =>
    if min 2 kws.length ≤ best then ⟨point, some seg.timestamp, seg.seconds⟩
    else ⟨point, none, some 0⟩
  | none => ⟨point, none, some 0⟩

/-- The claim amended minimally: a timestamp is attached precisely when the
point has at least one candidate keyword and the best count reaches
`min 2 (number of keywords)`; selection is still the earliest segment with
the strictly highest count. -/
def alignAmended (point : List Char) (transcript : List Segment) : AlignedPoint :=
  let kws := extractKeywords point
  let best := maxCount kws transcript
  match transcript.find? (fun s => decide (best ≤ matchCount kws s.text)) with
  | some seg =>
    if kws ≠ [] ∧ min 2 kws.length ≤ best then ⟨point, some seg.timestamp, seg.seconds⟩
    else ⟨point, none, some 0⟩
  | none => ⟨point, none, some 0⟩

/-- What the `getTranscript` branch of the message listener does
(`src/content/content.js` lines 28-57). -/
inductive ListenerAction where
  | respondError (msg : List Char)
  | startExtraction
deriving DecidableEq, Repr

/-- Module-level state of the content script (`content.js` lines 8-11). -/
structure ContentState where
  isExtractingTranscript : Bool
  retryCount : Nat
deriving DecidableEq, Repr

/-- The `getTranscript` branch of `chrome.runtime.onMessage` (`content.js`
lines 28-57): when an extraction is in flight the listener immediately
responds with an error and leaves the state alone; otherwise it sets the
in-flight flag, resets the retry counter and starts `extractTranscript`. -/
def handleGetTranscriptMessage (st : ContentState) : ListenerAction × ContentState :=
  if st.isExtractingTranscript then
    (ListenerAction.respondError (str "Already extracting transcript, please wait"), st)
  else
    (ListenerAction.startExtraction, { isExtractingTranscript := true, retryCount := 0 })

/-- One rendered transcript row: the two labels looked up by
`item.querySelector('.segment-timestamp')` / `('.segment-text')`; a missing
label is `none`. -/
structure Row where
  timeLabel : Option (List Char)
  textLabel : Option (List Char)
deriving DecidableEq, Repr

/-- The row loop of `extractTranscript` (`content.js` lines 151-175): rows
missing either label are skipped; `index` is the position among all rows
(the `forEach` index), the timestamp is trimmed and decoded. -/
def collectSegments : List Row → Nat → List Segment
  | [], _ => []
  | r :: rest, i =>
    match r.timeLabel, r.textLabel with
    | some t, some x =>
      let timeText := jsTrim t
      { text := jsTrim x, timestamp := timeText,
        seconds := parseTimestamp timeText, index := i } :: collectSegments rest (i + 1)
    | _, _ => collectSegments rest (i + 1)

/-- Segment extraction from the present rows (`content.js` lines 137-185):
no rows at all, or rows that all fail to parse, raise an error; otherwise
the parsed segments are returned. -/
def extractSegmentsFromItems (items : List Row) : Except (List Char) (List Segment) :=
  if items.length = 0 then
    Except.error (str "No transcript segments found. This video may not have captions available.")
  else
    let segments := collectSegments items 0
    if segments.length = 0 then
      Except.error (str "Failed to extract transcript segments. This video may not have captions available.")
    else Except.ok segments

/-- First-match association-list lookup (JavaScript object property read). -/
def assocFind (k : List Char) : List (List Char × α) → Option α
  | [] => none
  | (k2, v) :: rest => if k2 = k then some v else assocFind k rest

/-- JavaScript object property write: replace the first binding in place or
append a fresh one. -/
def upsert (k : List Char) (v : α) : List (List Char × α) → List (List Char × α)
  | [] => [(k, v)]
  | (k2, v2) :: rest => if k2 = k then (k, v) :: rest else (k2, v2) :: upsert k v rest

/-- `extractTranscript` (`content.js` lines 97-191) at the level the claims
need: the per-video memoization map short-circuits, otherwise the present
rows are parsed and a successful result is memoized. -/
def extractTranscript (cache : List (List Char × List Segment)) (videoId : List Char)
    (items : List Row) :
    Except (List Char) (List Segment × List (List Char × List Segment)) :=
  match assocFind videoId cache with
  | some segs => Except.ok (segs, cache)
  | none =>
    match extractSegmentsFromItems items with
    | Except.error e => Except.error e
    | Except.ok segs => Except.ok (segs, upsert videoId segs cache)

/-- A summary paragraph (`part_003` lines 258-284 and
`model-loader.js` lines 216-236): `none` embeds a `null` timestamp,
`some []` the initial empty string. -/
structure Para where
  text : List Char
  timestamp : Option (List Char)
  seconds : Option Int
deriving DecidableEq, Repr

/-- A summary section. -/
structure SummarySection where
  title : List Char
  paragraphs : List Para
deriving DecidableEq, Repr

/-- The summary object built by `TranscriptParser.createSummary`
(`src/unnamed/part_003` lines 287-305).  `new Date().toISOString()` is
embedded as the clock reading `now` passed in by the caller. -/
structure Summary where
  title : List Char
  videoId : List Char
  sections : List SummarySection
  timestamp : Nat
deriving DecidableEq, Repr

/-- The comparator `(a, b) => a.seconds - b.seconds`: a `NaN` difference
leaves the pair in place (comparator result treated as 0). -/
def segLe (a b : Segment) : Bool :=
  match jsSub a.seconds b.seconds with
  | none => true
  | some d => decide (d ≤ 0)

/-- Stable insertion: a new element goes after every element less than or
equal to it, matching the stable `Array.prototype.sort`. -/
def insertBySeconds (x : Segment) : List Segment → List Segment
  | [] => [x]
  | y :: rest => if segLe y x then y :: insertBySeconds x rest else x :: y :: rest

/-- Stable sort by `seconds` (`[...transcript].sort((a, b) => a.seconds -
b.seconds)`). -/
def sortBySeconds (l : List Segment) : List Segment :=
  l.foldl (fun acc x => insertBySeconds x acc) []

/-- JavaScript `Array.prototype.slice(start, stop)` with clamping and
negative-index wrapping. -/
def jsSlice (l : List α) (s e : Int) : List α :=
  let len : Int := l.length
  let s2 : Int := if s < 0 then max (len + s) 0 else min s len
  let e2 : Int := if e < 0 then max (len + e) 0 else min e len
  (l.drop s2.toNat).take (e2.toNat - s2.toNat)

/-- One-argument `slice(start)`. -/
def jsSliceFrom (l : List α) (s : Int) : List α :=
  jsSlice l s l.length

/-- The paragraph-merging `forEach` of `createSummary` (`part_003` lines
257-284): every fifth index pushes the accumulated paragraph and starts a
new one from the current segment, otherwise the segment text is appended
after a space; the final paragraph is pushed at the last index when its
trimmed text is non-empty. -/
def mergeGo (total : Nat) : List Segment → Nat → Para → List Para
  | [], _, _ => []
  | s :: rest, i, cur =>
    let step :=
      if 0 < i ∧ i % 5 = 0 then
        (if jsTrim cur.text ≠ [] then [cur] else [],
          (⟨s.text, some s.timestamp, s.seconds⟩ : Para))
      else ([], { cur with text := cur.text ++ ' ' :: s.text })
    let pushedPost := if i = total - 1 ∧ jsTrim step.2.text ≠ [] then [step.2] else []
    step.1 ++ pushedPost ++ mergeGo total rest (i + 1) step.2

/-- Paragraphs merged from the sampled segments. -/
def mergeParagraphs (segs : List Segment) : List Para :=
  mergeGo segs.length segs 0 ⟨[], some [], some 0⟩

/-- `TranscriptParser.createSummary` (`src/unnamed/part_003` lines
230-315): positional sampling of up-to-15-segment blocks from the
beginning, middle and end of the sorted transcript, paragraph merging, and
a fixed three-section layout.  The clock reading `now` stands for
`new Date().toISOString()`. -/
def createSummary (now : Nat) (transcript : List Segment) (videoId : List Char) :
    Except (List Char) Summary :=
  if transcript.length = 0 then Except.error (str "Empty transcript")
  else
    let sortedTranscript := sortBySeconds transcript
    let totalSegments := sortedTranscript.length
    let segmentsToUse := min 15 (totalSegments / 3)
    let beginningSegments := jsSlice sortedTranscript 0 segmentsToUse
    let middleStart := (totalSegments - segmentsToUse) / 2
    let middleSegments := jsSlice sortedTranscript middleStart (middleStart + segmentsToUse)
    let endSegments := jsSliceFrom sortedTranscript (-(segmentsToUse : Int))
    let summarySegments := sortBySeconds (beginningSegments ++ middleSegments ++ endSegments)
    let paragraphs := mergeParagraphs summarySegments
    Except.ok
      { title := str "Video Summary"
        videoId := videoId
        sections :=
          [ { title := str "Introduction"
              paragraphs := jsSlice paragraphs 0 ((paragraphs.length + 2) / 3) },
            { title := str "Main Points"
              paragraphs := jsSlice paragraphs ((paragraphs.length + 2) / 3)
                ((paragraphs.length * 2 + 2) / 3) },
            { title := str "Conclusion"
              paragraphs := jsSliceFrom paragraphs ((paragraphs.length * 2 + 2) / 3) } ]
        timestamp := now }

/-- The three regex captures of `formatSummaryResponse`
(`src/models/model-loader.js` lines 194-196); a failed match is `none`.
The regex engine that extracts the blocks from the raw response text is an
external collaborator, so the captured blocks are the input here. -/
structure GeneratorParts where
  mainTopicMatch : Option (List Char)
  keyPointsMatch : Option (List Char)
  conclusionMatch : Option (List Char)
deriving DecidableEq, Repr

/-- Characters of the bullet-split regex class `[•\-\*\d+\.\s]`
(`model-loader.js` line 203). -/
def bulletSepChar (c : Char) : Bool :=
  c = '•' || c = '-' || c = '*' || c.isDigit || c = '+' || c = '.' || c.isWhitespace

/-- `keyPoints.split(/[•\-\*\d+\.\s]/).map(p => p.trim()).filter(p => p)`
(`model-loader.js` line 203). -/
def extractBulletPoints (keyPoints : List Char) : List (List Char) :=
  (((splitOnPred bulletSepChar keyPoints).map jsTrim).filter (fun p => !p.isEmpty))

/-- The summary produced by `formatSummaryResponse`: only the sections are
returned (`model-loader.js` lines 240-242). -/
structure FormattedSummary where
  sections : List SummarySection
deriving DecidableEq, Repr

/-- `formatSummaryResponse` (`src/models/model-loader.js` lines 192-243):
default text for absent captures, bullet splitting of the Key Points block,
keyword alignment of each bullet, and a fixed three-section layout whose
Main Topic / Conclusion paragraphs take the first / last segment timestamp. -/
def formatSummaryResponse (parts : GeneratorParts) (transcript : List Segment) :
    FormattedSummary :=
  let mainTopic := match parts.mainTopicMatch with
    | some m => jsTrim m
    | none => str "Summary of the video"
  let keyPoints := match parts.keyPointsMatch with
    | some m => jsTrim m
    | none => []
  let conclusion := match parts.conclusionMatch with
    | some m => jsTrim m
    | none => []
  let bulletPoints := extractBulletPoints keyPoints
  let timestampedPoints := addTimestampsToPoints bulletPoints transcript
  let firstTimestamp := transcript.head?
  let lastTimestamp := transcript.getLast?
  { sections :=
      [ { title := str "Main Topic"
          paragraphs :=
            [ { text := mainTopic
                timestamp := firstTimestamp.map Segment.timestamp
                seconds := match firstTimestamp with
                  | some seg => seg.seconds
                  | none => some 0 } ] },
        { title := str "Key Points"
          paragraphs := timestampedPoints.map (fun point =>
            { text := point.text, timestamp := point.timestamp, seconds := point.seconds }) },
        { title := str "Conclusion"
          paragraphs :=
            [ { text := conclusion
                timestamp := lastTimestamp.map Segment.timestamp
                seconds := match lastTimestamp with
                  | some seg => seg.seconds
                  | none => some 0 } ] } ] }

/-- A persisted cache record of the first `saveToCache` variant
(`src/unnamed/part_003` lines 133-138). -/
structure StoredEntry (α : Type) where
  videoInfo : List Char
  summary : α
  timestamp : Nat
  expiration : Nat
deriving DecidableEq, Repr

/-- First `saveToCache` variant (`src/unnamed/part_003` lines 127-149): the
new entry (expiring seven days from `now`) is written, then every entry
whose `expiration` is before `now` is deleted, and the swept collection is
persisted. -/
def saveToCache (now : Nat) (store : List (List Char × StoredEntry α))
    (videoId videoInfo : List Char) (summary : α) :
    List (List Char × StoredEntry α) :=
  let withNew := upsert videoId
    { videoInfo := videoInfo, summary := summary, timestamp := now,
      expiration := now + 7 * 24 * 60 * 60 * 1000 } store
  withNew.filter (fun kv => !decide (kv.2.expiration < now))

/-- Second `saveToCache` variant (`src/unnamed/part_003` lines 350-369): the
summary is written under its key and the collection is persisted as-is; no
expiration field is attached and no sweep happens. -/
def saveToCacheSecond (store : List (List Char × α)) (videoId : List Char)
    (summary : α) : List (List Char × α) :=
  upsert videoId summary store

/-- Truthiness of `paragraph.timestamp` in `displaySummary`
(`src/unnamed/part_002` line 414): `null` and the empty string are falsy. -/
def paraTimestampTruthy (p : Para) : Bool :=
  match p.timestamp with
  | none => false
  | some l => !l.isEmpty

/-- Truthiness of `paragraph.seconds`: `0` and `NaN` are falsy. -/
def secondsTruthy (s : Option Int) : Bool :=
  match s with
  | none => false
  | some v => !decide (v = 0)

/-- Whether `displaySummary` (`src/unnamed/part_002` lines 410-431) creates
a clickable timestamp link for the paragraph: only when both the timestamp
string and the seconds value are truthy. -/
def rendersTimestampLink (p : Para) : Bool :=
  paraTimestampTruthy p && secondsTruthy p.seconds

/-- A decimal digit character, described by its value. -/
def isDigitForm (c : Char) : Prop := ∃ d, d < 10 ∧ c = Char.ofNat (48 + d)

/-- Example transcript from the spec (section 8) used by the alignment
claim. -/
def c1ExampleTranscript : List Segment :=
  [ ⟨str "today we discuss machine learning basics", str "0:10", some 10, 0⟩,
    ⟨str "later we explore neural networks deeply", str "3:20", some 200, 1⟩ ]

/-- A one-segment transcript used to exercise the keyword-free corner of the
alignment claim. -/
def c1CornerTranscript : List Segment :=
  [ ⟨str "hello world", str "0:05", some 5, 0⟩ ]

/-- A three-segment transcript (degenerate sampling input). -/
def threeSegTranscript : List Segment :=
  [ ⟨str "alpha", str "0:01", some 1, 0⟩,
    ⟨str "beta", str "0:02", some 2, 1⟩,
    ⟨str "gamma", str "0:03", some 3, 2⟩ ]

/-- A one-segment transcript for the determinism counterexample. -/
def oneSegTranscript : List Segment :=
  [ ⟨str "hello there friend", str "0:01", some 1, 0⟩ ]

/-- An already-expired record sitting in the persisted cache collection. -/
def expiredNeighborEntry : StoredEntry (List Char) :=
  { videoInfo := str "old info", summary := str "old summary",
    timestamp := 0, expiration := 50 }

theorem digitsVal_foldl_shift (l : List Char) (a : Nat) :
    l.foldl (fun a c => a * 10 + (c.toNat - 48)) a = a * 10 ^ l.length + digitsVal l := by
  induction l generalizing a with
  | nil => simp [digitsVal]
  | cons c t ih =>
    simp only [List.foldl_cons, List.length_cons, digitsVal]
    rw [ih (a * 10 + (c.toNat - 48)), ih (0 * 10 + (c.toNat - 48))]
    ring

theorem digitsVal_append (a b : List Char) :
    digitsVal (a ++ b) = digitsVal a * 10 ^ b.length + digitsVal b := by
  simp only [digitsVal, List.foldl_append]
  exact digitsVal_foldl_shift b (digitsVal a)

theorem digitForm_facts :
    ∀ d, d < 10 →
      (Char.ofNat (48 + d)).isWhitespace = false ∧
      (Char.ofNat (48 + d)).isDigit = true ∧
      Char.ofNat (48 + d) ≠ '-' ∧
      Char.ofNat (48 + d) ≠ '+' ∧
      Char.ofNat (48 + d) ≠ ':' ∧
      (Char.ofNat (48 + d)).toNat = 48 + d := by decide

theorem isDigitForm_of_isDigit (c : Char) (h : c.isDigit = true) : isDigitForm c := by
  have hb : 48 ≤ c.toNat ∧ c.toNat ≤ 57 := by
    simp [Char.isDigit] at h
    exact ⟨h.1, h.2⟩
  refine ⟨c.toNat - 48, by omega, ?_⟩
  have he : 48 + (c.toNat - 48) = c.toNat := by omega
  rw [he, Char.ofNat_toNat]

theorem natToCharsCore_spec :
    ∀ (fuel n : Nat) (acc : List Char), n < fuel →
      ∃ ds, natToCharsCore n fuel acc = ds ++ acc ∧ ds ≠ [] ∧
        (∀ c ∈ ds, isDigitForm c) ∧ digitsVal ds = n := by
  intro fuel
  induction fuel with
  | zero => intro n acc h; omega
  | succ fuel ih =>
    intro n acc h
    by_cases hn : n < 10
    · refine ⟨[Char.ofNat (48 + n)], ?_, by simp, ?_, ?_⟩
      · simp [natToCharsCore, hn]
      · intro c hc
        simp at hc
        exact hc ▸ ⟨n, hn, rfl⟩
      · simp [digitsVal, (digitForm_facts n hn).2.2.2.2.2]
    · have hlt : n / 10 < fuel := by
        have h1 : n / 10 < n := Nat.div_lt_self (by omega) (by omega)
        omega
      obtain ⟨ds, hds, hne, hdig, hval⟩ := ih (n / 10) (Char.ofNat (48 + n % 10) :: acc) hlt
      have hmod : n % 10 < 10 := Nat.mod_lt n (by omega)
      refine ⟨ds ++ [Char.ofNat (48 + n % 10)], ?_, by simp [hne], ?_, ?_⟩
      · simp [natToCharsCore, hn, hds]
      · intro c hc
        rcases List.mem_append.mp hc with hc | hc
        · exact hdig c hc
        · simp at hc
          exact hc ▸ ⟨n % 10, hmod, rfl⟩
      · rw [digitsVal_append, hval]
        simp [digitsVal, (digitForm_facts (n % 10) hmod).2.2.2.2.2]
        omega

theorem natToChars_spec (n : Nat) :
    ∃ ds, natToChars n = ds ∧ ds ≠ [] ∧ (∀ c ∈ ds, isDigitForm c) ∧ digitsVal ds = n := by
  obtain ⟨ds, hds, hne, hdig, hval⟩ := natToCharsCore_spec (n + 1) n [] (by omega)
  exact ⟨ds, by simpa [natToChars] using hds, hne, hdig, hval⟩

theorem digitForm_not_ws (c : Char) (h : isDigitForm c) : c.isWhitespace = false := by
  obtain ⟨d, hd, rfl⟩ := h
  exact (digitForm_facts d hd).1

theorem digitForm_isDigit (c : Char) (h : isDigitForm c) : c.isDigit = true := by
  obtain ⟨d, hd, rfl⟩ := h
  exact (digitForm_facts d hd).2.1

theorem digitForm_ne_colon (c : Char) (h : isDigitForm c) : c ≠ ':' := by
  obtain ⟨d, hd, rfl⟩ := h
  exact (digitForm_facts d hd).2.2.2.2.1

theorem digitsPrefixVal_of_digits (l : List Char) (hne : l ≠ [])
    (hdig : ∀ c ∈ l, isDigitForm c) : digitsPrefixVal l = some (digitsVal l) := by
  have htake : l.takeWhile Char.isDigit = l := by
    rw [List.takeWhile_eq_self_iff]
    exact fun c hc => digitForm_isDigit c (hdig c hc)
  simp [digitsPrefixVal, htake, List.isEmpty_iff, hne]

theorem jsParseInt_of_digits (l : List Char) (hne : l ≠ [])
    (hdig : ∀ c ∈ l, isDigitForm c) : jsParseInt l = some ((digitsVal l : Nat) : Int) := by
  rcases l with _ | ⟨c, t⟩
  · exact absurd rfl hne
  · have hc : isDigitForm c := hdig c (by simp)
    obtain ⟨d, hd, hcd⟩ := hc
    have hdrop : (c :: t).dropWhile Char.isWhitespace = c :: t := by
      rw [List.dropWhile_cons_of_neg]
      rw [hcd, (digitForm_facts d hd).1]
      simp
    have hminus : c ≠ '-' := hcd ▸ (digitForm_facts d hd).2.2.1
    have hplus : c ≠ '+' := hcd ▸ (digitForm_facts d hd).2.2.2.1
    unfold jsParseInt
    rw [hdrop]
    have hval := digitsPrefixVal_of_digits (c :: t) (by simp) hdig
    split
    · next heq => exact absurd (List.cons_eq_cons.mp heq).1 hminus
    · next heq => exact absurd (List.cons_eq_cons.mp heq).1 hplus
    · rw [hval]
      rfl

theorem zeroChar_digitForm : isDigitForm '0' := ⟨0, by omega, by decide⟩

theorem digitsVal_replicate_zero (k : Nat) (l : List Char) :
    digitsVal (List.replicate k '0' ++ l) = digitsVal l := by
  induction k with
  | zero => simp
  | succ k ih =>
    simp only [List.replicate_succ, List.cons_append, digitsVal, List.foldl_cons]
    have : (0 : Nat) * 10 + ('0'.toNat - 48) = 0 := by decide
    rw [this]
    exact ih

theorem padStart2_spec (l : List Char) (hne : l ≠ []) (hdig : ∀ c ∈ l, isDigitForm c) :
    padStart2 l ≠ [] ∧ (∀ c ∈ padStart2 l, isDigitForm c) ∧
      digitsVal (padStart2 l) = digitsVal l := by
  unfold padStart2
  by_cases hlen : 2 ≤ l.length
  · rw [if_pos hlen]
    exact ⟨hne, hdig, rfl⟩
  · rw [if_neg hlen]
    refine ⟨by simp [hne], ?_, digitsVal_replicate_zero (2 - l.length) l⟩
    intro c hc
    rcases List.mem_append.mp hc with hc | hc
    · rw [List.eq_of_mem_replicate hc]
      exact zeroChar_digitForm
    · exact hdig c hc

theorem splitOnChar_ne_nil (sep : Char) (l : List Char) : splitOnChar sep l ≠ [] := by
  cases l with
  | nil => simp [splitOnChar]
  | cons c cs =>
    unfold splitOnChar
    split
    · simp
    · split <;> simp

theorem splitOnChar_of_not_mem (sep : Char) (l : List Char) (h : sep ∉ l) :
    splitOnChar sep l = [l] := by
  induction l with
  | nil => rfl
  | cons c cs ih =>
    have hc : c ≠ sep := fun hcc => h (hcc ▸ List.mem_cons_self c cs)
    have hcs : sep ∉ cs := fun hm => h (List.mem_cons_of_mem c hm)
    unfold splitOnChar
    rw [ih hcs]
    simp [hc]

theorem splitOnChar_append_sep (sep : Char) (a b : List Char) (h : sep ∉ a) :
    splitOnChar sep (a ++ sep :: b) = a :: splitOnChar sep b := by
  induction a with
  | nil =>
    simp only [List.nil_append]
    rw [splitOnChar]
    rcases hsp : splitOnChar sep b with _ | ⟨r, rs⟩
    · exact absurd hsp (splitOnChar_ne_nil sep b)
    · simp
  | cons c cs ih =>
    have hc : c ≠ sep := fun hcc => h (hcc ▸ List.mem_cons_self c cs)
    have hcs : sep ∉ cs := fun hm => h (List.mem_cons_of_mem c hm)
    simp only [List.cons_append]
    rw [splitOnChar, ih hcs]
    simp [hc]

theorem colon_not_mem_of_digits (l : List Char) (hdig : ∀ c ∈ l, isDigitForm c) :
    ':' ∉ l := by
  intro hmem
  exact digitForm_ne_colon ':' (hdig ':' hmem) rfl

theorem jsParseInt_natToChars (n : Nat) : jsParseInt (natToChars n) = some ((n : Nat) : Int) := by
  obtain ⟨ds, hds, hne, hdig, hval⟩ := natToChars_spec n
  rw [hds, jsParseInt_of_digits ds hne hdig, hval]

theorem jsParseInt_pad_natToChars (n : Nat) :
    jsParseInt (padStart2 (natToChars n)) = some ((n : Nat) : Int) := by
  obtain ⟨ds, hds, hne, hdig, hval⟩ := natToChars_spec n
  obtain ⟨hpne, hpdig, hpval⟩ := padStart2_spec ds hne hdig
  rw [hds, jsParseInt_of_digits _ hpne hpdig, hpval, hval]

theorem colon_not_mem_natToChars (n : Nat) : ':' ∉ natToChars n := by
  obtain ⟨ds, hds, _, hdig, _⟩ := natToChars_spec n
  rw [hds]
  exact colon_not_mem_of_digits ds hdig

theorem colon_not_mem_pad_natToChars (n : Nat) : ':' ∉ padStart2 (natToChars n) := by
  obtain ⟨ds, hds, hne, hdig, _⟩ := natToChars_spec n
  rw [hds]
  exact colon_not_mem_of_digits _ (padStart2_spec ds hne hdig).2.1

theorem int_fdiv_cast (a b : Nat) : Int.fdiv (a : Int) (b : Int) = ((a / b : Nat) : Int) := by
  rw [Int.fdiv_eq_tdiv (by positivity) (by positivity)]
  exact (Int.ofNat_tdiv a b).symm

theorem int_tmod_cast (a b : Nat) : Int.tmod (a : Int) (b : Int) = ((a % b : Nat) : Int) :=
  (Int.ofNat_tmod a b).symm

theorem intToChars_cast (k : Nat) : intToChars ((k : Nat) : Int) = natToChars k := by
  unfold intToChars
  rw [if_neg (by omega), Int.toNat_natCast]

theorem int_fdiv_cast3600 (a : Nat) :
    Int.fdiv (a : Int) (3600 : Int) = ((a / 3600 : Nat) : Int) := by
  have h := int_fdiv_cast a 3600
  norm_num at h
  exact h

theorem int_fdiv_cast60 (a : Nat) :
    Int.fdiv (a : Int) (60 : Int) = ((a / 60 : Nat) : Int) := by
  have h := int_fdiv_cast a 60
  norm_num at h
  exact h

theorem int_tmod_cast3600 (a : Nat) :
    Int.tmod (a : Int) (3600 : Int) = ((a % 3600 : Nat) : Int) := by
  have h := int_tmod_cast a 3600
  norm_num at h
  exact h

theorem int_tmod_cast60 (a : Nat) :
    Int.tmod (a : Int) (60 : Int) = ((a % 60 : Nat) : Int) := by
  have h := int_tmod_cast a 60
  norm_num at h
  exact h

theorem parseTimestamp_formatDuration (n : Nat) :
    parseTimestamp (formatDuration (some ((n : Nat) : Int))) = some ((n : Nat) : Int) := by
  rcases Nat.eq_zero_or_pos n with h0 | hpos
  · subst h0
    decide
  · have hne0 : ((n : Nat) : Int) ≠ 0 := by
      simp only [ne_eq, Int.natCast_eq_zero]
      omega
    unfold formatDuration
    simp only [hne0, if_false]
    rw [int_tmod_cast3600 n, int_tmod_cast60 n, int_fdiv_cast3600, int_fdiv_cast60]
    by_cases hh : 0 < n / 3600
    · rw [if_pos (by exact_mod_cast hh)]
      rw [intToChars_cast, intToChars_cast, intToChars_cast]
      unfold parseTimestamp
      rw [splitOnChar_append_sep ':' _ _ (colon_not_mem_natToChars (n / 3600)),
        splitOnChar_append_sep ':' _ _ (colon_not_mem_pad_natToChars (n % 3600 / 60)),
        splitOnChar_of_not_mem ':' _ (colon_not_mem_pad_natToChars (n % 60))]
      simp only [jsParseInt_natToChars, jsParseInt_pad_natToChars, jsMul, jsAdd,
        Option.some.injEq]
      push_cast
      omega
    · rw [if_neg (by exact_mod_cast hh)]
      rw [intToChars_cast, intToChars_cast]
      unfold parseTimestamp
      rw [splitOnChar_append_sep ':' _ _ (colon_not_mem_natToChars (n % 3600 / 60)),
        splitOnChar_of_not_mem ':' _ (colon_not_mem_pad_natToChars (n % 60))]
      simp only [jsParseInt_natToChars, jsParseInt_pad_natToChars, jsMul, jsAdd,
        Option.some.injEq]
      push_cast
      omega

theorem validShape_decode (display : List Char) (h : validShapeB display = true) :
    ∃ n : Nat, parseTimestamp display = some ((n : Nat) : Int) := by
  unfold validShapeB at h
  rcases hsp : splitOnChar ':' display with _ | ⟨a, _ | ⟨b, _ | ⟨c, _ | ⟨d, rest⟩⟩⟩⟩ <;>
    rw [hsp] at h
  · simp at h
  · simp at h
  · simp only [Bool.and_eq_true, decide_eq_true_eq, List.all_eq_true] at h
    obtain ⟨⟨⟨⟨h1, h2⟩, h3⟩, h4⟩, h5⟩ := h
    have hadf : ∀ ch ∈ a, isDigitForm ch := fun ch hc => isDigitForm_of_isDigit ch (h4 ch hc)
    have hbdf : ∀ ch ∈ b, isDigitForm ch := fun ch hc => isDigitForm_of_isDigit ch (h5 ch hc)
    have hane : a ≠ [] := List.ne_nil_of_length_pos (by omega)
    have hbne : b ≠ [] := List.ne_nil_of_length_pos (by omega)
    have hpt : parseTimestamp display = jsAdd (jsMul (jsParseInt a) (some 60)) (jsParseInt b) := by
      unfold parseTimestamp
      rw [hsp]
    refine ⟨digitsVal a * 60 + digitsVal b, ?_⟩
    rw [hpt, jsParseInt_of_digits a hane hadf, jsParseInt_of_digits b hbne hbdf]
    simp only [jsMul, jsAdd, Option.some.injEq]
    push_cast
    ring
  · simp only [Bool.and_eq_true, decide_eq_true_eq, List.all_eq_true] at h
    obtain ⟨⟨⟨⟨⟨⟨h1, h2⟩, h3⟩, h4⟩, h5⟩, h6⟩, h7⟩ := h
    have hadf : ∀ ch ∈ a, isDigitForm ch := fun ch hc => isDigitForm_of_isDigit ch (h5 ch hc)
    have hbdf : ∀ ch ∈ b, isDigitForm ch := fun ch hc => isDigitForm_of_isDigit ch (h6 ch hc)
    have hcdf : ∀ ch ∈ c, isDigitForm ch := fun ch hc => isDigitForm_of_isDigit ch (h7 ch hc)
    have hane : a ≠ [] := List.ne_nil_of_length_pos (by omega)
    have hbne : b ≠ [] := List.ne_nil_of_length_pos (by omega)
    have hcne : c ≠ [] := List.ne_nil_of_length_pos (by omega)
    have hpt : parseTimestamp display =
        jsAdd (jsAdd (jsMul (jsParseInt a) (some 3600)) (jsMul (jsParseInt b) (some 60)))
          (jsParseInt c) := by
      unfold parseTimestamp
      rw [hsp]
    refine ⟨digitsVal a * 3600 + digitsVal b * 60 + digitsVal c, ?_⟩
    rw [hpt, jsParseInt_of_digits a hane hadf, jsParseInt_of_digits b hbne hbdf,
      jsParseInt_of_digits c hcne hcdf]
    simp only [jsMul, jsAdd, Option.some.injEq]
    push_cast
    ring
  · simp at h

/-- C2: for every display string of shape `M:SS`, `MM:SS`, `H:MM:SS` or
`HH:MM:SS` with numeric fields, decoding, re-encoding with `formatDuration`
and decoding again gives the same seconds value as decoding once:
`decode (encode (decode display)) = decode display`. -/
theorem timestamp_codec_roundtrip (display : List Char) (h : validShapeB display = true) :
    parseTimestamp (formatDuration (parseTimestamp display)) = parseTimestamp display := by
  obtain ⟨n, hn⟩ := validShape_decode display h
  rw [hn]
  exact parseTimestamp_formatDuration n

/-- Witness for C2 at the concrete display `"1:05"` (decoding to 65). -/
theorem timestamp_codec_roundtrip_witness :
    validShapeB (str "1:05") = true ∧
      parseTimestamp (formatDuration (parseTimestamp (str "1:05"))) =
        parseTimestamp (str "1:05") :=
  ⟨by decide, timestamp_codec_roundtrip (str "1:05") (by decide)⟩

/-- C3: decoding a display string splits on `:`; exactly two parts give
`m*60+s`, exactly three parts give `h*3600+m*60+s` (with JavaScript
`parseInt`/`NaN` arithmetic on the parts), and every other shape yields
seconds 0 instead of an error. -/
theorem timestamp_decode_shapes (display : List Char) :
    (∀ p0 p1, splitOnChar ':' display = [p0, p1] →
      parseTimestamp display = jsAdd (jsMul (jsParseInt p0) (some 60)) (jsParseInt p1)) ∧
    (∀ p0 p1 p2, splitOnChar ':' display = [p0, p1, p2] →
      parseTimestamp display =
        jsAdd (jsAdd (jsMul (jsParseInt p0) (some 3600)) (jsMul (jsParseInt p1) (some 60)))
          (jsParseInt p2)) ∧
    ((splitOnChar ':' display).length ≠ 2 → (splitOnChar ':' display).length ≠ 3 →
      parseTimestamp display = some 0) := by
  refine ⟨?_, ?_, ?_⟩
  · intro p0 p1 hsp
    unfold parseTimestamp
    rw [hsp]
  · intro p0 p1 p2 hsp
    unfold parseTimestamp
    rw [hsp]
  · intro h2 h3
    rcases hsp : splitOnChar ':' display with _ | ⟨a, _ | ⟨b, _ | ⟨c, _ | ⟨d, rest⟩⟩⟩⟩
    · unfold parseTimestamp
      rw [hsp]
    · unfold parseTimestamp
      rw [hsp]
    · rw [hsp] at h2
      simp at h2
    · rw [hsp] at h3
      simp at h3
    · unfold parseTimestamp
      rw [hsp]

/-- Witness for C3: a two-part stamp, a three-part stamp, and a malformed
one-part stamp decoding to 0. -/
theorem timestamp_decode_shapes_witness :
    parseTimestamp (str "2:03") =
      jsAdd (jsMul (jsParseInt (str "2")) (some 60)) (jsParseInt (str "03")) ∧
    parseTimestamp (str "1:02:03") =
      jsAdd (jsAdd (jsMul (jsParseInt (str "1")) (some 3600))
        (jsMul (jsParseInt (str "02")) (some 60))) (jsParseInt (str "03")) ∧
    parseTimestamp (str "90") = some 0 :=
  ⟨(timestamp_decode_shapes (str "2:03")).1 (str "2") (str "03") (by decide),
   (timestamp_decode_shapes (str "1:02:03")).2.1 (str "1") (str "02") (str "03") (by decide),
   (timestamp_decode_shapes (str "90")).2.2 (by decide) (by decide)⟩

/-- C4: whenever the in-flight flag is set, a second `getTranscript` request
is answered with an error response, the extraction routine is not started,
and the listener state is left unchanged — so no second menu-opening /
DOM-mutation sequence can begin while an extraction is active. -/
theorem busy_guard (st : ContentState) (h : st.isExtractingTranscript = true) :
    (handleGetTranscriptMessage st).1 =
      ListenerAction.respondError (str "Already extracting transcript, please wait") ∧
    (handleGetTranscriptMessage st).1 ≠ ListenerAction.startExtraction ∧
    (handleGetTranscriptMessage st).2 = st := by
  unfold handleGetTranscriptMessage
  rw [if_pos h]
  exact ⟨rfl, by simp, rfl⟩

/-- Witness for C4 at the concrete busy state. -/
theorem busy_guard_witness :
    (⟨true, 0⟩ : ContentState).isExtractingTranscript = true ∧
    ((handleGetTranscriptMessage ⟨true, 0⟩).1 =
        ListenerAction.respondError (str "Already extracting transcript, please wait") ∧
      (handleGetTranscriptMessage ⟨true, 0⟩).1 ≠ ListenerAction.startExtraction ∧
      (handleGetTranscriptMessage ⟨true, 0⟩).2 = ⟨true, 0⟩) :=
  ⟨rfl, busy_guard ⟨true, 0⟩ rfl⟩

theorem collectSegments_all_bad (rows : List Row)
    (h : ∀ r ∈ rows, r.timeLabel = none ∨ r.textLabel = none) :
    ∀ i, collectSegments rows i = [] := by
  induction rows with
  | nil => intro i; rfl
  | cons r rest ih =>
    intro i
    have hr := h r (by simp)
    have hrest : ∀ r2 ∈ rest, r2.timeLabel = none ∨ r2.textLabel = none :=
      fun r2 hm => h r2 (List.mem_cons_of_mem r hm)
    unfold collectSegments
    rcases hr with hr | hr <;> rw [hr] <;>
      first
        | exact ih hrest (i + 1)
        | (rcases htl : r.timeLabel with _ | t
           · exact ih hrest (i + 1)
           · exact ih hrest (i + 1))

theorem extractSegmentsFromItems_ok_ne_nil (items : List Row) (segs : List Segment)
    (h : extractSegmentsFromItems items = Except.ok segs) : segs ≠ [] := by
  unfold extractSegmentsFromItems at h
  by_cases h0 : items.length = 0
  · rw [if_pos h0] at h
    exact absurd h (by simp)
  · rw [if_neg h0] at h
    by_cases h1 : (collectSegments items 0).length = 0
    · rw [if_pos h1] at h
      exact absurd h (by simp)
    · rw [if_neg h1] at h
      have : collectSegments items 0 = segs := by
        exact Except.ok.inj h
      rw [← this]
      intro hnil
      exact h1 (by rw [hnil]; rfl)

theorem assocFind_upsert (k k2 : List Char) (v : α) (l : List (List Char × α)) :
    assocFind k (upsert k2 v l) = if k2 = k then some v else assocFind k l := by
  induction l with
  | nil =>
    unfold upsert assocFind
    by_cases h : k2 = k <;> simp [h, assocFind]
  | cons kv rest ih =>
    obtain ⟨k3, v3⟩ := kv
    unfold upsert
    by_cases h32 : k3 = k2
    · rw [if_pos h32]
      unfold assocFind
      by_cases h2k : k2 = k
      · rw [if_pos h2k, if_pos h2k]
      · rw [if_neg h2k, if_neg h2k, if_neg (h32 ▸ h2k)]
    · rw [if_neg h32]
      unfold assocFind
      by_cases h3k : k3 = k
      · rw [if_pos h3k, if_pos h3k]
        have hne : ¬ (k2 = k) := fun h2k => h32 (by rw [h3k, h2k])
        rw [if_neg hne]
      · rw [if_neg h3k, if_neg h3k, ih]

/-- C5: extraction with zero parsable rows (none present, or every present
row missing its timestamp or text label) fails with an error; and every
transcript `extractTranscript` returns successfully is non-empty — the
memoization map only ever holds non-empty transcripts. -/
theorem extract_empty_fails :
    (∀ items : List Row, (∀ r ∈ items, r.timeLabel = none ∨ r.textLabel = none) →
      ∃ e, extractSegmentsFromItems items = Except.error e) ∧
    (∀ (cache : List (List Char × List Segment)) (videoId : List Char) (items : List Row)
        (segs : List Segment) (cache2 : List (List Char × List Segment)),
      (∀ k v, assocFind k cache = some v → v ≠ []) →
      extractTranscript cache videoId items = Except.ok (segs, cache2) →
      segs ≠ [] ∧ ∀ k v, assocFind k cache2 = some v → v ≠ []) := by
  constructor
  · intro items hbad
    unfold extractSegmentsFromItems
    by_cases h0 : items.length = 0
    · rw [if_pos h0]
      exact ⟨_, rfl⟩
    · rw [if_neg h0, if_pos (by rw [collectSegments_all_bad items hbad 0]; rfl)]
      exact ⟨_, rfl⟩
  · intro cache videoId items segs cache2 hinv hok
    unfold extractTranscript at hok
    rcases hfind : assocFind videoId cache with _ | oldSegs <;> rw [hfind] at hok
    · rcases hext : extractSegmentsFromItems items with e | newSegs <;> rw [hext] at hok
      · exact absurd hok (by simp)
      · have hpair : newSegs = segs ∧ upsert videoId newSegs cache = cache2 := by
          have := Except.ok.inj hok
          exact ⟨congrArg Prod.fst this, congrArg Prod.snd this⟩
        obtain ⟨hsegs, hcache⟩ := hpair
        have hne : segs ≠ [] := hsegs ▸ extractSegmentsFromItems_ok_ne_nil items newSegs hext
        refine ⟨hne, ?_⟩
        intro k v hkv
        rw [← hcache, assocFind_upsert] at hkv
        by_cases hk : videoId = k
        · rw [if_pos hk] at hkv
          exact (Option.some.inj hkv) ▸ hsegs ▸ hne
        · rw [if_neg hk] at hkv
          exact hinv k v hkv
    · have hpair : oldSegs = segs ∧ cache = cache2 := by
        have := Except.ok.inj hok
        exact ⟨congrArg Prod.fst this, congrArg Prod.snd this⟩
      obtain ⟨hsegs, hcache⟩ := hpair
      exact ⟨hsegs ▸ hinv videoId oldSegs hfind, hcache ▸ hinv⟩

/-- Witness for C5: a single row missing its timestamp label fails, and
extracting one good row on an empty memoization map returns that one
non-empty transcript and memoizes it. -/
theorem extract_empty_fails_witness :
    (∃ e, extractSegmentsFromItems [⟨none, some (str "hi")⟩] = Except.error e) ∧
    ([(⟨str "good row", str "0:01", some 1, 0⟩ : Segment)] ≠ [] ∧
      ∀ k v, assocFind k [(str "vid", [(⟨str "good row", str "0:01", some 1, 0⟩ : Segment)])] =
        some v → v ≠ []) :=
  ⟨extract_empty_fails.1 [⟨none, some (str "hi")⟩]
      (by intro r hr; simp at hr; rw [hr]; exact Or.inl rfl),
   extract_empty_fails.2 [] (str "vid") [⟨some (str "0:01"), some (str "good row")⟩]
      [⟨str "good row", str "0:01", some 1, 0⟩]
      [(str "vid", [⟨str "good row", str "0:01", some 1, 0⟩])]
      (by intro k v h; exact absurd h (by simp [assocFind])) rfl⟩

/-- C6: a non-empty transcript always reduces to a summary with exactly 3
sections (`createSummary` builds a literal three-section list), the
delegated `formatSummaryResponse` likewise always emits exactly 3 sections,
and the degenerate 3-segment transcript is reduced without error. -/
theorem summary_three_sections :
    (∀ (now : Nat) (transcript : List Segment) (videoId : List Char), transcript ≠ [] →
      ∃ s, createSummary now transcript videoId = Except.ok s ∧ s.sections.length = 3) ∧
    (∀ (parts : GeneratorParts) (transcript : List Segment),
      (formatSummaryResponse parts transcript).sections.length = 3) ∧
    (∃ s, createSummary 0 threeSegTranscript (str "vid3") = Except.ok s ∧
      s.sections.length = 3) := by
  refine ⟨?_, ?_, ?_⟩
  · intro now transcript videoId hne
    unfold createSummary
    rw [if_neg (fun h => hne (List.length_eq_zero.mp h))]
    exact ⟨_, rfl, rfl⟩
  · intro parts transcript
    rfl
  · exact ⟨_, rfl, rfl⟩

/-- Witness for C6 at a concrete one-segment transcript. -/
theorem summary_three_sections_witness :
    ∃ s, createSummary 7 oneSegTranscript (str "w") = Except.ok s ∧ s.sections.length = 3 :=
  summary_three_sections.1 7 oneSegTranscript (str "w") (by decide)

/-- C7 counterexample: two calls of the positional-sampling `createSummary`
on the same transcript and video identifier, made at different clock
readings (`new Date().toISOString()` is taken at call time), produce
different Summary objects: the `timestamp` field differs, so the output is
not byte-identical. -/
theorem createSummary_clock_dependent :
    createSummary 0 oneSegTranscript (str "vid") ≠ createSummary 1 oneSegTranscript (str "vid") ∧
    (createSummary 0 oneSegTranscript (str "vid")).toOption.map Summary.timestamp = some 0 ∧
    (createSummary 1 oneSegTranscript (str "vid")).toOption.map Summary.timestamp = some 1 := by
  refine ⟨?_, rfl, rfl⟩
  intro h
  have e0 : (createSummary 0 oneSegTranscript (str "vid")).toOption.map Summary.timestamp =
      some 0 := rfl
  rw [h] at e0
  have e1 : (createSummary 1 oneSegTranscript (str "vid")).toOption.map Summary.timestamp =
      some 1 := rfl
  rw [e1] at e0
  exact absurd e0 (by decide)

/-- C7 (amended): `createSummary` is deterministic up to the clock: two
calls with the same transcript and video identifier produce identical
title, video identifier and sections; the whole Summary (the `generatedAt`
timestamp included) is byte-identical exactly when the clock readings
coincide. -/
theorem createSummary_deterministic (now1 now2 : Nat) (transcript : List Segment)
    (videoId : List Char) :
    ((createSummary now1 transcript videoId).toOption.map Summary.sections =
      (createSummary now2 transcript videoId).toOption.map Summary.sections) ∧
    ((createSummary now1 transcript videoId).toOption.map Summary.title =
      (createSummary now2 transcript videoId).toOption.map Summary.title) ∧
    ((createSummary now1 transcript videoId).toOption.map Summary.videoId =
      (createSummary now2 transcript videoId).toOption.map Summary.videoId) ∧
    (now1 = now2 →
      createSummary now1 transcript videoId = createSummary now2 transcript videoId) := by
  refine ⟨?_, ?_, ?_, fun h => h ▸ rfl⟩ <;>
    · unfold createSummary
      by_cases h0 : transcript.length = 0
      · rw [if_pos h0, if_pos h0]
      · rw [if_neg h0, if_neg h0]
        rfl

/-- Witness for C7 at concrete clock readings 3 and 4 (and 3 = 3 for the
byte-identical part). -/
theorem createSummary_deterministic_witness :
    ((createSummary 3 oneSegTranscript (str "vid")).toOption.map Summary.sections =
      (createSummary 4 oneSegTranscript (str "vid")).toOption.map Summary.sections) ∧
    createSummary 3 oneSegTranscript (str "vid") = createSummary 3 oneSegTranscript (str "vid") :=
  ⟨(createSummary_deterministic 3 4 oneSegTranscript (str "vid")).1,
   (createSummary_deterministic 3 3 oneSegTranscript (str "vid")).2.2.2 rfl⟩

theorem assocFind_filter_upsert (k : List Char) (v : α) (p : List Char × α → Bool)
    (l : List (List Char × α)) (hp : p (k, v) = true) :
    assocFind k ((upsert k v l).filter p) = some v := by
  induction l with
  | nil =>
    unfold upsert
    rw [List.filter_cons_of_pos hp, List.filter_nil]
    unfold assocFind
    rw [if_pos rfl]
  | cons kv rest ih =>
    obtain ⟨k2, v2⟩ := kv
    unfold upsert
    by_cases hk : k2 = k
    · rw [if_pos hk, List.filter_cons_of_pos hp]
      unfold assocFind
      rw [if_pos rfl]
    · rw [if_neg hk]
      by_cases hp2 : p (k2, v2) = true
      · rw [List.filter_cons_of_pos hp2]
        unfold assocFind
        rw [if_neg hk]
        exact ih
      · rw [List.filter_cons_of_neg (by simp [hp2])]
        exact ih

/-- C8 counterexample: the second `saveToCache` variant performs no sweep.
With the persisted collection holding a neighbor record whose expiration
(50) is already before the current time (100), a put for the key `"new"`
completes with the expired neighbor still present in the persisted cache. -/
theorem saveToCacheSecond_keeps_expired :
    expiredNeighborEntry.expiration < 100 ∧
    assocFind (str "old")
        (saveToCacheSecond [(str "old", expiredNeighborEntry)] (str "new")
          (⟨str "new info", str "new summary", 100, 604800100⟩ : StoredEntry (List Char))) =
      some expiredNeighborEntry :=
  ⟨by decide, rfl⟩

/-- C8 (amended): the first `saveToCache` variant (the one that wraps
entries with an expiration) sweeps on every put: afterwards every persisted
entry has `expiration ≥ now` — in particular every entry with
`expiration < now` is absent — and the key being put maps to the fresh
entry expiring seven days later, overwriting any previous entry for that
key.  The second variant only upserts and performs no sweep. -/
theorem saveToCache_sweeps (now : Nat) (store : List (List Char × StoredEntry α))
    (videoId videoInfo : List Char) (summary : α) :
    (∀ k e, (k, e) ∈ saveToCache now store videoId videoInfo summary → now ≤ e.expiration) ∧
    assocFind videoId (saveToCache now store videoId videoInfo summary) =
      some ⟨videoInfo, summary, now, now + 7 * 24 * 60 * 60 * 1000⟩ := by
  constructor
  · intro k e hm
    unfold saveToCache at hm
    have := (List.mem_filter.mp hm).2
    simp only [Bool.not_eq_true', decide_eq_false_iff_not, not_lt] at this
    exact this
  · unfold saveToCache
    exact assocFind_filter_upsert videoId _ _ store
      (by simp only [Bool.not_eq_true', decide_eq_false_iff_not, not_lt]; omega)

/-- Witness for C8: a put at time 100 over a store holding an expired
neighbor; the theorem is applied to the fresh entry that is a member of the
swept collection. -/
theorem saveToCache_sweeps_witness :
    (100 : Nat) ≤
      (⟨str "i", str "s", 100, 100 + 7 * 24 * 60 * 60 * 1000⟩ :
        StoredEntry (List Char)).expiration ∧
    assocFind (str "new")
        (saveToCache 100 [(str "old", expiredNeighborEntry)] (str "new") (str "i") (str "s")) =
      some ⟨str "i", str "s", 100, 100 + 7 * 24 * 60 * 60 * 1000⟩ :=
  ⟨(saveToCache_sweeps 100 [(str "old", expiredNeighborEntry)] (str "new") (str "i")
      (str "s")).1 (str "new") ⟨str "i", str "s", 100, 100 + 7 * 24 * 60 * 60 * 1000⟩
      (by decide),
   (saveToCache_sweeps 100 [(str "old", expiredNeighborEntry)] (str "new") (str "i")
      (str "s")).2⟩

/-- C9: evaluation of the bullet splitter at the failing input.  The regex
character class `[•\-\*\d+\.\s]` splits on every whitespace character too,
so the single bullet `"• machine learning basics"` is broken into the three
word fragments instead of one whole key-point string, and those fragments
are what reach the keyword aligner (the Key Points section gets one
paragraph per fragment). -/
theorem bullet_split_fragments :
    extractBulletPoints (str "• machine learning basics") =
      [str "machine", str "learning", str "basics"] ∧
    (formatSummaryResponse
        ⟨some (str "topic intro"), some (str "• machine learning basics"), some (str "the end")⟩
        []).sections.map (fun sec => sec.paragraphs.length) = [1, 3, 1] :=
  ⟨rfl, rfl⟩

/-- C10: the popup renderer creates a clickable timestamp link only when
both the timestamp string and the seconds value are truthy, so a paragraph
with `seconds = 0` gets no link even when its display string is non-null;
in particular the Main Topic paragraph always takes the first segment
timestamp, and when that segment sits at 0 seconds the paragraph is not
navigable. -/
theorem zero_seconds_not_navigable :
    (∀ p : Para, p.seconds = some 0 → rendersTimestampLink p = false) ∧
    (∀ p : Para, rendersTimestampLink p = true ↔
      (paraTimestampTruthy p = true ∧ secondsTruthy p.seconds = true)) ∧
    (∀ (parts : GeneratorParts) (seg : Segment) (rest : List Segment), seg.seconds = some 0 →
      ∃ p tail, (formatSummaryResponse parts (seg :: rest)).sections =
          ⟨str "Main Topic", [p]⟩ :: tail ∧
        p.timestamp = some seg.timestamp ∧ rendersTimestampLink p = false) := by
  refine ⟨?_, ?_, ?_⟩
  · intro p h
    unfold rendersTimestampLink secondsTruthy
    rw [h]
    simp
  · intro p
    unfold rendersTimestampLink
    exact iff_of_eq (Bool.and_eq_true _ _)
  · intro parts seg rest h
    refine ⟨_, _, rfl, rfl, ?_⟩
    unfold rendersTimestampLink secondsTruthy
    show (paraTimestampTruthy _ &&
      match seg.seconds with
      | none => false
      | some v => !decide (v = 0)) = false
    rw [h]
    simp

/-- Witness for C10: a paragraph at seconds 0 with a non-null display
string, and a transcript whose first segment sits at `"0:00"`. -/
theorem zero_seconds_not_navigable_witness :
    rendersTimestampLink ⟨str "pt", some (str "0:00"), some 0⟩ = false ∧
    ∃ p tail,
      (formatSummaryResponse ⟨none, none, none⟩
          [⟨str "welcome", str "0:00", some 0, 0⟩]).sections =
        ⟨str "Main Topic", [p]⟩ :: tail ∧
      p.timestamp = some (str "0:00") ∧ rendersTimestampLink p = false :=
  ⟨zero_seconds_not_navigable.1 ⟨str "pt", some (str "0:00"), some 0⟩ rfl,
   zero_seconds_not_navigable.2.2 ⟨none, none, none⟩ ⟨str "welcome", str "0:00", some 0, 0⟩
     [] rfl⟩

theorem maxCount_nil (kws : List (List Char)) : maxCount kws [] = 0 := rfl

theorem maxCount_cons (kws : List (List Char)) (s : Segment) (rest : List Segment) :
    maxCount kws (s :: rest) = max (matchCount kws s.text) (maxCount kws rest) := by
  simp [maxCount]

theorem bestMatchAux_eq (kws : List (List Char)) (l : List Segment) :
    ∀ (b0 : Option Segment) (c0 : Nat),
      bestMatchAux kws l (b0, c0) =
        if maxCount kws l ≤ c0 then (b0, c0)
        else (l.find? (fun s => decide (maxCount kws l ≤ matchCount kws s.text)),
          maxCount kws l) := by
  induction l with
  | nil =>
    intro b0 c0
    rw [if_pos (by rw [maxCount_nil]; omega)]
    rfl
  | cons s rest ih =>
    intro b0 c0
    have hmc := maxCount_cons kws s rest
    by_cases h1 : c0 < matchCount kws s.text
    · have hstep : bestMatchAux kws (s :: rest) (b0, c0) =
          bestMatchAux kws rest (some s, matchCount kws s.text) := by
        simp only [bestMatchAux]
        rw [if_pos h1]
      rw [hstep, ih]
      by_cases h2 : maxCount kws rest ≤ matchCount kws s.text
      · rw [if_pos h2]
        have hM : maxCount kws (s :: rest) = matchCount kws s.text := by
          rw [hmc]; omega
        rw [if_neg (by omega), hM,
          List.find?_cons_of_pos _ (by simp)]
      · rw [if_neg h2]
        have hM : maxCount kws (s :: rest) = maxCount kws rest := by
          rw [hmc]; omega
        rw [if_neg (by omega), hM,
          List.find?_cons_of_neg _ (by simpa using h2)]
    · have hstep : bestMatchAux kws (s :: rest) (b0, c0) =
          bestMatchAux kws rest (b0, c0) := by
        simp only [bestMatchAux]
        rw [if_neg h1]
      rw [hstep, ih]
      by_cases h2 : maxCount kws rest ≤ c0
      · rw [if_pos h2, if_pos (by rw [hmc]; omega)]
      · rw [if_neg h2]
        have hM : maxCount kws (s :: rest) = maxCount kws rest := by
          rw [hmc]; omega
        rw [if_neg (by rw [hmc]; omega), hM,
          List.find?_cons_of_neg _ (by simp only [decide_eq_true_eq]; omega)]

theorem addTimestampToPoint_eq_amended (point : List Char) (transcript : List Segment) :
    addTimestampToPoint point transcript = alignAmended point transcript := by
  simp only [addTimestampToPoint, alignAmended]
  by_cases hk : extractKeywords point = []
  · rw [hk]
    rw [if_neg (by simp)]
    rcases hf : transcript.find?
        (fun s => decide (maxCount [] transcript ≤ matchCount [] s.text)) with _ | seg
    · rw [hf]
    · simp only [hf]
      rw [if_neg (by simp)]
  · have hlen : 0 < (extractKeywords point).length := List.length_pos.mpr hk
    rw [if_pos hlen, bestMatchAux_eq]
    by_cases hM : maxCount (extractKeywords point) transcript ≤ 0
    · rw [if_pos hM]
      have hM0 : maxCount (extractKeywords point) transcript = 0 := by omega
      rcases hf : transcript.find? (fun s =>
          decide (maxCount (extractKeywords point) transcript ≤
            matchCount (extractKeywords point) s.text)) with _ | seg
      · simp only [hf]
      · simp only [hf]
        rw [if_neg (by
          intro hcon
          have := hcon.2
          omega)]
    · rw [if_neg hM]
      rcases hf : transcript.find? (fun s =>
          decide (maxCount (extractKeywords point) transcript ≤
            matchCount (extractKeywords point) s.text)) with _ | seg
      · simp only [hf]
      · simp only [hf]
        by_cases hcond : min 2 (extractKeywords point).length ≤
            maxCount (extractKeywords point) transcript
        · rw [if_pos hcond, if_pos ⟨hk, hcond⟩]
        · rw [if_neg hcond, if_neg (by intro hcon; exact hcond hcon.2)]

/-- C1 (amended): for every key-point string and transcript, the aligner
extracts as candidate keywords the whitespace-separated tokens of the
lower-cased point that are at least 5 characters long, stripped of
punctuation; counts for each segment how many keywords occur as substrings
of its lower-cased text; selects the earliest segment with the strictly
highest count; and attaches that segment's timestamp and seconds if and
only if the point has at least one candidate keyword and the best count is
at least `min 2 (number of keywords)` — otherwise the point's timestamp is
null (`alignAmended` states exactly this).  On the spec's two-segment
example, the point `"neural networks explained deeply"` is aligned to the
segment at 200 seconds. -/
theorem keyword_alignment :
    (∀ (point : List Char) (transcript : List Segment),
      addTimestampToPoint point transcript = alignAmended point transcript) ∧
    addTimestampToPoint (str "neural networks explained deeply") c1ExampleTranscript =
      ⟨str "neural networks explained deeply", some (str "3:20"), some 200⟩ :=
  ⟨addTimestampToPoint_eq_amended, by decide⟩

/-- C1 counterexample: for the point `"a b"` (which has no token of length
at least 5, hence zero candidate keywords) over a one-segment transcript,
the claim as stated — attach exactly when the best count reaches
`min 2 (number of keywords)`, here `min 2 0 = 0 ≤ 0` — would attach the
first segment's timestamp (`alignClaimLiteral` does), but the code returns
a null timestamp. -/
theorem keyword_alignment_counterexample :
    (addTimestampToPoint (str "a b") c1CornerTranscript).timestamp = none ∧
    (alignClaimLiteral (str "a b") c1CornerTranscript).timestamp = some (str "0:05") :=
  ⟨rfl, rfl⟩
